import Mathlib

/-
Shallow embedding of the Advanced Event Management API
(src/routes/eventRoutes.js together with the server entry file).

The datastore is a single JSON file holding an array of event records.
We model the file as a `Store`: it can be absent (ENOENT), present but
blank (only whitespace), present but unparsable JSON, or a parsed list
of event records.  Request bodies are modelled with `Option` fields
(`none` = the key is absent from the JSON body, i.e. `undefined` after
destructuring).  The event fields that the API ever stores are strings,
except `tags`, where the code explicitly distinguishes array values from
non-array values (`Array.isArray`); `TagsVal` keeps that distinction.
Each Express handler becomes a pure function from the request data and
the current store to the HTTP response and the new store.
-/

/-- A JSON value in `tags` position: either an array of strings or a
single non-array (primitive) value, modelled as a string. -/
inductive TagsVal where
  | arr (l : List String)
  | prim (s : String)
deriving DecidableEq, Repr

/-- Models the test Array.isArray on a tags value. -/
def TagsVal.isArr : TagsVal → Bool
  | .arr _ => true
  | .prim _ => false

/-- One event record as stored in the JSON file. -/
structure Event where
  id : String
  eventName : String
  date : String
  location : String
  description : String
  tags : TagsVal
deriving DecidableEq, Repr

/-- The state of the data file `data/events.json`. -/
inductive Store where
  | absent
  | blank
  | corrupt
  | events (l : List Event)
deriving DecidableEq, Repr

/-- Models `readEvents`: a missing file (ENOENT) and a file whose content
trims to the empty string both give `[]`; any other read/parse failure is
rethrown as the corruption error; otherwise the parsed array is returned. -/
def readEvents : Store → Except String (List Event)
  | .absent => .ok []
  | .blank => .ok []
  | .corrupt => .error "Failed to read events data (file may be corrupted)."
  | .events l => .ok l

/-- Models `writeEvents`: the full collection overwrites the file. -/
def writeEvents (l : List Event) : Store :=
  .events l

/-- Models `generateId`: `Date.now().toString() + "-" + Math.floor(Math.random() * 100000)`.
The wall clock and the random draw are inputs of the model. -/
def generateId (now rand : Nat) : String :=
  toString now ++ "-" ++ toString (rand % 100000)

/-- JS truthiness of a possibly-absent string: `undefined` and `""` are
falsy, every other string is truthy. -/
def truthyOpt : Option String → Bool
  | none => false
  | some s => !(s == "")

/-- Models `description || ""`. -/
def orEmpty : Option String → String
  | none => ""
  | some s => if s == "" then "" else s

/-- Models the create handler's `Array.isArray(tags) ? tags : tags ? [tags] : []`. -/
def createTags : Option TagsVal → TagsVal
  | some (.arr l) => .arr l
  | some (.prim s) => if s == "" then .arr [] else .arr [s]
  | none => .arr []

/-- Models the update handler's `Array.isArray(tags) ? tags : [tags]`. -/
def wrapTags : TagsVal → TagsVal
  | .arr l => .arr l
  | .prim s => .arr [s]

/-- Body of `POST /api/events`, fields in destructuring order
`{ eventName, date, location, description, tags }`; `none` means the key
is absent from the request body. -/
structure CreateBody where
  eventName : Option String
  date : Option String
  location : Option String
  description : Option String
  tags : Option TagsVal
deriving DecidableEq, Repr

/-- Body of `PUT /api/events/:id`, fields in destructuring order
`{ location, description, tags, date, eventName, ...rest }`; the `id`
field is the body's `id` key, which lands in `rest`. -/
structure UpdateBody where
  location : Option String
  description : Option String
  tags : Option TagsVal
  date : Option String
  eventName : Option String
  id : Option String
deriving DecidableEq, Repr

/-- HTTP responses the handlers produce, with their payloads. -/
inductive Resp where
  | created (e : Event)
  | okEvent (e : Event)
  | okList (l : List Event)
  | okMsg
  | badRequest
  | notFound
  | conflict
  | serverError
deriving DecidableEq, Repr

/-- The HTTP status code of each response (the error middleware turns a
thrown read error into `err.statusCode || 500`, hence 500). -/
def Resp.status : Resp → Nat
  | .created _ => 201
  | .okEvent _ => 200
  | .okList _ => 200
  | .okMsg => 200
  | .badRequest => 400
  | .notFound => 404
  | .conflict => 409
  | .serverError => 500

/-- Models `router.post("/")`: validate required fields by truthiness,
read the store, reject a record with the same `eventName` and `date`,
otherwise build the new record, append it and write the collection back. -/
def postEvent (b : CreateBody) (now rand : Nat) (st : Store) : Resp × Store :=
  if !truthyOpt b.eventName || !truthyOpt b.date || !truthyOpt b.location then
    (.badRequest, st)
  else
    match readEvents st with
    | .error _ => (.serverError, st)
    | .ok events =>
      if events.any fun e => e.eventName == b.eventName.getD "" && e.date == b.date.getD "" then
        (.conflict, st)
      else
        let newEvent : Event :=
          { id := generateId now rand
            eventName := b.eventName.getD ""
            date := b.date.getD ""
            location := b.location.getD ""
            description := orEmpty b.description
            tags := createTags b.tags }
        (.created newEvent, writeEvents (events ++ [newEvent]))

/-- Models `router.get("/")`: return the whole collection. -/
def getEvents (st : Store) : Resp × Store :=
  match readEvents st with
  | .error _ => (.serverError, st)
  | .ok events => (.okList events, st)

/-- The field assignments of the update handler on the found record:
each of `location`, `description`, `date` is assigned when it is not
`undefined`; `tags`, when not `undefined`, is stored via `wrapTags`. -/
def applyUpdate (b : UpdateBody) (e : Event) : Event :=
  { e with
    location := match b.location with | some v => v | none => e.location
    description := match b.description with | some v => v | none => e.description
    date := match b.date with | some v => v | none => e.date
    tags := match b.tags with | some t => wrapTags t | none => e.tags }

/-- Models `events.findIndex(e => e.id === id)` followed by the in-place
mutation of that element: the first record whose `id` matches is replaced
by its update, and the updated record and new list are returned; `none`
models `findIndex` returning `-1`. -/
def updateList (pid : String) (b : UpdateBody) : List Event → Option (Event × List Event)
  | [] => none
  | e :: rest =>
    if e.id == pid then
      let u := applyUpdate b e
      some (u, u :: rest)
    else
      match updateList pid b rest with
      | none => none
      | some (u, rest') => some (u, e :: rest')

/-- Models `router.put("/:id")`: reject a truthy `eventName`, then a
truthy `rest.id`, then a body with none of the four updatable fields;
read the store, locate the record by id (404 when absent), apply the
supplied fields, write back, and return the updated record. -/
def putEvent (pid : String) (b : UpdateBody) (st : Store) : Resp × Store :=
  if truthyOpt b.eventName then
    (.badRequest, st)
  else if truthyOpt b.id then
    (.badRequest, st)
  else if b.location.isNone && b.description.isNone && b.tags.isNone && b.date.isNone then
    (.badRequest, st)
  else
    match readEvents st with
    | .error _ => (.serverError, st)
    | .ok events =>
      match updateList pid b events with
      | none => (.notFound, st)
      | some (u, events') => (.okEvent u, writeEvents events')

/-- Models `router.delete("/:id")`: read the store, 404 when no record
has the id (`findIndex === -1`), otherwise write back
`events.filter(e => e.id !== id)` and confirm. -/
def deleteEvent (pid : String) (st : Store) : Resp × Store :=
  match readEvents st with
  | .error _ => (.serverError, st)
  | .ok events =>
    if events.any fun e => e.id == pid then
      (.okMsg, writeEvents (events.filter fun e => !(e.id == pid)))
    else
      (.notFound, st)

/-
Helper lemmas about the embedded operations.
-/

/-- A fresh id is never the empty string: it contains the separator. -/
theorem generateId_ne_empty (now rand : Nat) : generateId now rand ≠ "" := by
  intro h
  have hlen := congrArg String.length h
  simp [generateId, String.length_append] at hlen
  exact absurd hlen.1.2 (by decide)

/-- When no record of `events` has id `pid`, the findIndex-and-update
returns `none` (findIndex gave -1). -/
theorem updateList_none (pid : String) (b : UpdateBody) :
    ∀ events : List Event, (∀ x ∈ events, (x.id == pid) = false) →
      updateList pid b events = none
  | [], _ => rfl
  | x :: rest, h => by
      have hx := h x (List.mem_cons_self x rest)
      have ih := updateList_none pid b rest fun y hy => h y (List.mem_cons_of_mem x hy)
      simp [updateList, hx, ih]

/-- When the first record with id `pid` is `e`, the findIndex-and-update
replaces exactly that occurrence by `applyUpdate b e`. -/
theorem updateList_spec (pid : String) (b : UpdateBody) :
    ∀ (pre : List Event) (e : Event) (post : List Event),
      (∀ x ∈ pre, (x.id == pid) = false) → (e.id == pid) = true →
      updateList pid b (pre ++ e :: post)
        = some (applyUpdate b e, pre ++ applyUpdate b e :: post)
  | [], e, post, _, he => by simp [updateList, he]
  | x :: pre, e, post, hpre, he => by
      have hx := hpre x (List.mem_cons_self x pre)
      have ih := updateList_spec pid b pre e post
        (fun y hy => hpre y (List.mem_cons_of_mem x hy)) he
      simp [updateList, hx, ih]

/-- Inversion of the findIndex-and-update: a successful result comes from
the first matching record. -/
theorem updateList_decomp (pid : String) (b : UpdateBody) :
    ∀ (events : List Event) (u : Event) (events' : List Event),
      updateList pid b events = some (u, events') →
      ∃ pre e post, events = pre ++ e :: post ∧ (e.id == pid) = true ∧
        u = applyUpdate b e ∧ events' = pre ++ u :: post
  | [], u, events', h => by simp [updateList] at h
  | x :: rest, u, events', h => by
      cases hx : x.id == pid with
      | true =>
          rw [updateList, if_pos hx] at h
          obtain ⟨hu, hl⟩ := Prod.mk.injEq .. ▸ Option.some.inj h
          exact ⟨[], x, rest, rfl, hx, hu.symm, by simp [hl.symm, hu]⟩
      | false =>
          rw [updateList, if_neg (by simp [hx])] at h
          cases hrec : updateList pid b rest with
          | none => rw [hrec] at h; exact absurd h (by simp)
          | some p =>
              obtain ⟨u0, rest'⟩ := p
              rw [hrec] at h
              obtain ⟨hu, hl⟩ := Prod.mk.injEq .. ▸ Option.some.inj h
              obtain ⟨pre, e, post, h1, h2, h3, h4⟩ :=
                updateList_decomp pid b rest u0 rest' hrec
              exact ⟨x :: pre, e, post, by simp [h1], h2, hu ▸ h3,
                by simp [← hl, h4, hu]⟩

/-- Inversion of the create handler: a 201 response means validation
passed, the duplicate scan found nothing, the response record is exactly
the constructed one, and the store is the old collection with that record
appended. -/
theorem postEvent_created_inv (b : CreateBody) (now rand : Nat) (st : Store)
    (e : Event) (st' : Store)
    (h : postEvent b now rand st = (.created e, st')) :
    ∃ events, readEvents st = .ok events
      ∧ (events.any fun x =>
          x.eventName == b.eventName.getD "" && x.date == b.date.getD "") = false
      ∧ e = ⟨generateId now rand, b.eventName.getD "", b.date.getD "",
             b.location.getD "", orEmpty b.description, createTags b.tags⟩
      ∧ st' = .events (events ++ [e]) := by
  unfold postEvent at h
  split at h
  · exact absurd h (by simp)
  · split at h
    next heq => exact absurd h (by simp)
    next events heq =>
      split at h
      · exact absurd h (by simp)
      next hdup =>
        simp only [writeEvents, Prod.mk.injEq, Resp.created.injEq] at h
        refine ⟨events, heq, by simpa using hdup, h.1.symm, ?_⟩
        rw [← h.2, ← h.1]

/-- Inversion of the update handler on a parsed store: a 200 response
means the findIndex-and-update succeeded and its new list was written. -/
theorem putEvent_ok_inv (pid : String) (b : UpdateBody) (events : List Event)
    (u : Event) (st' : Store)
    (h : putEvent pid b (.events events) = (.okEvent u, st')) :
    ∃ events', updateList pid b events = some (u, events')
      ∧ st' = .events events' := by
  unfold putEvent at h
  split at h
  · exact absurd h (by simp)
  · split at h
    · exact absurd h (by simp)
    · split at h
      · exact absurd h (by simp)
      · simp only [readEvents] at h
        split at h
        · exact absurd h (by simp)
        next u0 events' hul =>
          simp only [writeEvents, Prod.mk.injEq, Resp.okEvent.injEq] at h
          exact ⟨events', h.1 ▸ hul, h.2.symm⟩

/-- Splitting a no-duplicate-ids collection around one record: every
other record has a different id. -/
theorem nodup_split_ids (pre post : List Event) (e : Event)
    (h : ((pre ++ e :: post).map Event.id).Nodup) :
    (∀ x ∈ pre, x.id ≠ e.id) ∧ (∀ x ∈ post, x.id ≠ e.id) := by
  rw [List.map_append, List.map_cons, List.nodup_append] at h
  obtain ⟨-, h2, h3⟩ := h
  constructor
  · intro x hx hxe
    exact h3 (List.mem_map_of_mem Event.id hx) (by simp [hxe])
  · intro x hx hxe
    rw [List.nodup_cons] at h2
    exact h2.1 (hxe ▸ List.mem_map_of_mem Event.id hx)

/-- Filtering out one id from a collection in which only the middle
record carries it removes exactly that record. -/
theorem filter_ne_of_split (pre post : List Event) (e : Event)
    (hpre : ∀ x ∈ pre, x.id ≠ e.id) (hpost : ∀ x ∈ post, x.id ≠ e.id) :
    ((pre ++ e :: post).filter fun x => !(x.id == e.id)) = pre ++ post := by
  rw [List.filter_append, List.filter_cons]
  have hself : (!(e.id == e.id)) = false := by simp
  rw [if_neg (by simp)]
  rw [List.filter_eq_self.mpr fun x hx => by simp [hpre x hx],
      List.filter_eq_self.mpr fun x hx => by simp [hpost x hx]]

/-- A sample stored record used by the concrete witnesses. -/
def sampleEvent : Event :=
  ⟨"1", "A", "2025-01-01", "Here", "d", .arr ["t"]⟩

/-- C1: an update on an existing id yields 200 with exactly the targeted
record rewritten in place: only the fields present in the body
(location, description, date, tags) change, the record's id and
eventName and every other record are untouched, and a supplied tags
value replaces the stored sequence wholesale. -/
theorem c1_update_partial_patch (pid : String) (b : UpdateBody)
    (pre post : List Event) (e : Event)
    (hname : truthyOpt b.eventName = false) (hid : truthyOpt b.id = false)
    (hfield : (b.location.isNone && b.description.isNone
                && b.tags.isNone && b.date.isNone) = false)
    (hpre : ∀ x ∈ pre, (x.id == pid) = false) (he : (e.id == pid) = true) :
    putEvent pid b (.events (pre ++ e :: post))
        = (.okEvent (applyUpdate b e), .events (pre ++ applyUpdate b e :: post))
      ∧ (applyUpdate b e).id = e.id
      ∧ (applyUpdate b e).eventName = e.eventName
      ∧ (applyUpdate b e).location = b.location.getD e.location
      ∧ (applyUpdate b e).description = b.description.getD e.description
      ∧ (applyUpdate b e).date = b.date.getD e.date
      ∧ (applyUpdate b e).tags
          = (match b.tags with | some t => wrapTags t | none => e.tags) := by
  refine ⟨?_, rfl, rfl, ?_, ?_, ?_, rfl⟩
  · simp [putEvent, hname, hid, hfield, readEvents,
      updateList_spec pid b pre e post hpre he, writeEvents]
  · cases hb : b.location <;> simp [applyUpdate, hb]
  · cases hb : b.description <;> simp [applyUpdate, hb]
  · cases hb : b.date <;> simp [applyUpdate, hb]

/-- Witness for C1: updating only the location of the single stored
record changes nothing but the location. -/
theorem c1_update_partial_patch_witness :
    (∀ x ∈ ([] : List Event), (x.id == "1") = false)
  ∧ (sampleEvent.id == "1") = true
  ∧ putEvent "1" ⟨some "New Place", none, none, none, none, none⟩
        (.events [sampleEvent])
      = (.okEvent ⟨"1", "A", "2025-01-01", "New Place", "d", .arr ["t"]⟩,
         .events [⟨"1", "A", "2025-01-01", "New Place", "d", .arr ["t"]⟩]) := by
  refine ⟨by decide, by decide, ?_⟩
  have h := c1_update_partial_patch "1"
    ⟨some "New Place", none, none, none, none, none⟩ [] [] sampleEvent
    (by decide) (by decide) (by decide) (by decide) (by decide)
  exact h.1

/-- C5 counterexample: a body that carries the eventName key with the
falsy value "" (and likewise an id key with a falsy value) is not
rejected: this update succeeds with 200 and the collection changes. -/
theorem c5_counterexample :
    putEvent "1" ⟨some "New", none, none, none, some "", some ""⟩
        (.events [sampleEvent])
      = (.okEvent ⟨"1", "A", "2025-01-01", "New", "d", .arr ["t"]⟩,
         .events [⟨"1", "A", "2025-01-01", "New", "d", .arr ["t"]⟩])
  ∧ Resp.status (.okEvent ⟨"1", "A", "2025-01-01", "New", "d", .arr ["t"]⟩)
      = 200 := by
  decide

/-- C5 (amended): an update whose body carries a truthy (non-empty)
eventName or a truthy id value is rejected with 400 and the store is
untouched, regardless of whether the path id exists; a falsy eventName
or id value in the body is ignored rather than rejected (the field still
cannot be changed, as update never assigns it). -/
theorem c5_amended_truthy_immutable (pid : String) (b : UpdateBody) (st : Store)
    (h : truthyOpt b.eventName = true ∨ truthyOpt b.id = true) :
    putEvent pid b st = (.badRequest, st) ∧ Resp.status .badRequest = 400 := by
  refine ⟨?_, rfl⟩
  rcases h with h | h
  · simp [putEvent, h]
  · cases he : truthyOpt b.eventName with
    | true => simp [putEvent, he]
    | false => simp [putEvent, he, h]

/-- Witness for C5 (amended): a truthy eventName is rejected even on a
nonexistent path id and an empty store. -/
theorem c5_amended_truthy_immutable_witness :
    truthyOpt (some "X") = true
  ∧ putEvent "nope" ⟨none, none, none, none, some "X", none⟩ (.events [])
      = (.badRequest, .events []) :=
  ⟨by decide,
   (c5_amended_truthy_immutable "nope" ⟨none, none, none, none, some "X", none⟩
     (.events []) (Or.inl (by decide))).1⟩

/-- C6: a create request missing any of eventName, date, location (or
supplying it empty, hence falsy) is rejected with 400 before any storage
access: the store is unchanged, and even a corrupt store produces 400
rather than 500 because no read happens. -/
theorem c6_create_missing_required (b : CreateBody) (now rand : Nat) (st : Store)
    (h : truthyOpt b.eventName = false ∨ truthyOpt b.date = false
          ∨ truthyOpt b.location = false) :
    postEvent b now rand st = (.badRequest, st)
      ∧ Resp.status .badRequest = 400 := by
  have hc : (!truthyOpt b.eventName || !truthyOpt b.date
              || !truthyOpt b.location) = true := by
    rcases h with h | h | h <;> simp [h]
  exact ⟨by simp [postEvent, hc], rfl⟩

/-- Witness for C6: a create without eventName fails with 400 even on a
corrupt store (showing no storage read occurs). -/
theorem c6_create_missing_required_witness :
    truthyOpt (none : Option String) = false
  ∧ postEvent ⟨none, some "2025-01-01", some "Here", none, none⟩ 5 3 .corrupt
      = (.badRequest, .corrupt) :=
  ⟨by decide,
   (c6_create_missing_required ⟨none, some "2025-01-01", some "Here", none, none⟩
     5 3 .corrupt (Or.inl (by decide))).1⟩

/-- C7: an update request carrying none of location, description, tags,
date (in particular the empty body) is rejected with 400 and the store —
hence the targeted record — is unchanged. -/
theorem c7_update_empty_body (pid : String) (b : UpdateBody) (st : Store)
    (hl : b.location = none) (hd : b.description = none)
    (ht : b.tags = none) (hdate : b.date = none) :
    putEvent pid b st = (.badRequest, st) ∧ Resp.status .badRequest = 400 := by
  refine ⟨?_, rfl⟩
  cases he : truthyOpt b.eventName with
  | true => simp [putEvent, he]
  | false =>
    cases hi : truthyOpt b.id with
    | true => simp [putEvent, he, hi]
    | false => simp [putEvent, he, hi, hl, hd, ht, hdate]

/-- Witness for C7: the empty body is rejected on an existing id and the
store keeps the record unchanged. -/
theorem c7_update_empty_body_witness :
    putEvent "1" ⟨none, none, none, none, none, none⟩ (.events [sampleEvent])
      = (.badRequest, .events [sampleEvent]) :=
  (c7_update_empty_body "1" ⟨none, none, none, none, none, none⟩
    (.events [sampleEvent]) rfl rfl rfl rfl).1

/-- C9: read-all returns the full stored collection unfiltered and in
file order with 200; an absent file and a present-but-blank file both
give the empty array; an unparsable file surfaces the corruption error
as 500. -/
theorem c9_read_all_semantics (l : List Event) :
    getEvents (.events l) = (.okList l, .events l)
  ∧ Resp.status (.okList l) = 200
  ∧ getEvents .absent = (.okList [], .absent)
  ∧ getEvents .blank = (.okList [], .blank)
  ∧ getEvents .corrupt = (.serverError, .corrupt)
  ∧ Resp.status .serverError = 500 :=
  ⟨rfl, rfl, rfl, rfl, rfl, rfl⟩

/-- C2: with the required fields present, a create finding a stored
record with the same eventName and date answers 409 and leaves the store
unchanged; and a successful create preserves the invariant that no two
events share the same (eventName, date) pair. -/
theorem c2_duplicate_create (b : CreateBody) (now rand : Nat) (events : List Event)
    (hn : truthyOpt b.eventName = true) (hd : truthyOpt b.date = true)
    (hl : truthyOpt b.location = true) :
    ((∃ x ∈ events, x.eventName = b.eventName.getD "" ∧ x.date = b.date.getD "") →
        postEvent b now rand (.events events) = (.conflict, .events events)
          ∧ Resp.status .conflict = 409)
  ∧ (∀ (e : Event) (st' : Store),
      postEvent b now rand (.events events) = (.created e, st') →
      events.Pairwise (fun a c => a.eventName ≠ c.eventName ∨ a.date ≠ c.date) →
      (events ++ [e]).Pairwise
        (fun a c => a.eventName ≠ c.eventName ∨ a.date ≠ c.date)) := by
  have hv : (!truthyOpt b.eventName || !truthyOpt b.date
              || !truthyOpt b.location) = false := by
    simp [hn, hd, hl]
  constructor
  · intro hdup
    have ha : (events.any fun x =>
        x.eventName == b.eventName.getD "" && x.date == b.date.getD "") = true := by
      rcases hdup with ⟨x, hx, h1, h2⟩
      exact List.any_eq_true.mpr ⟨x, hx, by simp [h1, h2]⟩
    exact ⟨by simp [postEvent, hv, readEvents, ha], rfl⟩
  · intro e st' hsucc hpw
    obtain ⟨events0, heq, hnodup, he, -⟩ :=
      postEvent_created_inv b now rand _ e st' hsucc
    have hevents : events = events0 := by simpa [readEvents] using heq
    rw [← hevents] at hnodup
    rw [List.pairwise_append]
    refine ⟨hpw, List.pairwise_singleton _ _, ?_⟩
    intro a ha c hc
    rw [List.mem_singleton] at hc
    rw [hc, he]
    by_contra hcon
    push_neg at hcon
    obtain ⟨h1, h2⟩ := hcon
    have hbad : (events.any fun x =>
        x.eventName == b.eventName.getD "" && x.date == b.date.getD "") = true :=
      List.any_eq_true.mpr ⟨a, ha, by simp [h1, h2]⟩
    rw [hbad] at hnodup
    exact Bool.true_eq_false.mp hnodup

/-- Witness for C2: a second create with the same eventName and date is
refused and the singleton store stays; a fresh create on the empty store
keeps the pairs pairwise distinct. -/
theorem c2_duplicate_create_witness :
    postEvent ⟨some "A", some "2025-01-01", some "L", none, none⟩ 5 3
        (.events [sampleEvent]) = (.conflict, .events [sampleEvent])
  ∧ (([] ++ [⟨"5-3", "B", "2025-01-01", "L", "", .arr []⟩] : List Event).Pairwise
      (fun a c => a.eventName ≠ c.eventName ∨ a.date ≠ c.date)) := by
  constructor
  · exact ((c2_duplicate_create ⟨some "A", some "2025-01-01", some "L", none, none⟩
      5 3 [sampleEvent] (by decide) (by decide) (by decide)).1 (by decide)).1
  · exact (c2_duplicate_create ⟨some "B", some "2025-01-01", some "L", none, none⟩
      5 3 [] (by decide) (by decide) (by decide)).2
      ⟨"5-3", "B", "2025-01-01", "L", "", .arr []⟩
      (.events [⟨"5-3", "B", "2025-01-01", "L", "", .arr []⟩])
      (by decide) (by decide)

/-- C3: a create whose required fields are non-empty and which finds no
duplicate answers 201 with a record carrying the freshly generated
non-empty id, the supplied eventName, date and location, the description
defaulted to "" when absent and the tags defaulted to the empty sequence
when absent; the record is appended at the end and the collection
persisted. -/
theorem c3_create_success (b : CreateBody) (now rand : Nat) (events : List Event)
    (hn : truthyOpt b.eventName = true) (hd : truthyOpt b.date = true)
    (hl : truthyOpt b.location = true)
    (hfresh : ∀ x ∈ events,
      ¬(x.eventName = b.eventName.getD "" ∧ x.date = b.date.getD "")) :
    ∃ e : Event,
      postEvent b now rand (.events events) = (.created e, .events (events ++ [e]))
      ∧ Resp.status (.created e) = 201
      ∧ e.id = generateId now rand ∧ e.id ≠ ""
      ∧ e.eventName = b.eventName.getD "" ∧ e.date = b.date.getD ""
      ∧ e.location = b.location.getD ""
      ∧ e.description = orEmpty b.description ∧ e.tags = createTags b.tags
      ∧ (b.description = none → e.description = "")
      ∧ (b.tags = none → e.tags = .arr []) := by
  have hv : (!truthyOpt b.eventName || !truthyOpt b.date
              || !truthyOpt b.location) = false := by
    simp [hn, hd, hl]
  have ha : (events.any fun x =>
      x.eventName == b.eventName.getD "" && x.date == b.date.getD "") = false := by
    rw [List.any_eq_false]
    intro x hx
    simpa using hfresh x hx
  refine ⟨⟨generateId now rand, b.eventName.getD "", b.date.getD "",
      b.location.getD "", orEmpty b.description, createTags b.tags⟩, ?_, rfl, rfl,
      generateId_ne_empty now rand, rfl, rfl, rfl, rfl, rfl, ?_, ?_⟩
  · simp [postEvent, hv, readEvents, ha, writeEvents]
  · intro h; simp [orEmpty, h]
  · intro h; simp [createTags, h]

/-- Witness for C3: creating on the empty store with no optional fields. -/
theorem c3_create_success_witness :
    ∃ e : Event,
      postEvent ⟨some "A", some "2025-01-01", some "Here", none, none⟩ 5 3
          (.events []) = (.created e, .events ([] ++ [e]))
      ∧ Resp.status (.created e) = 201
      ∧ e.id = generateId 5 3 ∧ e.id ≠ ""
      ∧ e.eventName = (some "A").getD "" ∧ e.date = (some "2025-01-01").getD ""
      ∧ e.location = (some "Here").getD ""
      ∧ e.description = orEmpty none ∧ e.tags = createTags none
      ∧ ((none : Option String) = none → e.description = "")
      ∧ ((none : Option TagsVal) = none → e.tags = .arr []) :=
  c3_create_success ⟨some "A", some "2025-01-01", some "Here", none, none⟩ 5 3 []
    (by decide) (by decide) (by decide) (by decide)

/-- C4 counterexample: the generated id is time-plus-random and is not
checked against the stored ids, so a create can mint an id equal to an
already stored one: here the store holds id "5-0" and the create at
Date.now() = 5 with random draw 0 stores a second record with id "5-0",
breaking pairwise distinctness. -/
theorem c4_counterexample :
    postEvent ⟨some "B", some "2025", some "L", none, none⟩ 5 0
        (.events [⟨"5-0", "A", "2024", "L", "", .arr []⟩])
      = (.created ⟨"5-0", "B", "2025", "L", "", .arr []⟩,
         .events [⟨"5-0", "A", "2024", "L", "", .arr []⟩,
                  ⟨"5-0", "B", "2025", "L", "", .arr []⟩])
  ∧ Event.id ⟨"5-0", "B", "2025", "L", "", .arr []⟩
      = Event.id ⟨"5-0", "A", "2024", "L", "", .arr []⟩
  ∧ ¬ (List.map Event.id [⟨"5-0", "A", "2024", "L", "", .arr []⟩,
        (⟨"5-0", "B", "2025", "L", "", .arr []⟩ : Event)]).Nodup := by
  exact ⟨by decide, by decide, by decide⟩

/-- C4 (amended): whenever the generated time-plus-random id differs from
every stored id — which the scheme makes likely but never checks nor
guarantees — the created record's id is fresh and pairwise distinctness
of the stored ids is preserved. -/
theorem c4_amended_fresh_id (b : CreateBody) (now rand : Nat)
    (events : List Event) (e : Event) (st' : Store)
    (hfresh : generateId now rand ∉ events.map Event.id)
    (hsucc : postEvent b now rand (.events events) = (.created e, st'))
    (hnodup : (events.map Event.id).Nodup) :
    e.id = generateId now rand ∧ e.id ∉ events.map Event.id
      ∧ ((events ++ [e]).map Event.id).Nodup
      ∧ st' = .events (events ++ [e]) := by
  obtain ⟨events0, heq, -, he, hst⟩ :=
    postEvent_created_inv b now rand _ e st' hsucc
  have hevents : events = events0 := by simpa [readEvents] using heq
  subst hevents
  have hid : e.id = generateId now rand := by rw [he]
  refine ⟨hid, hid ▸ hfresh, ?_, hst⟩
  rw [List.map_append, List.map_singleton, List.nodup_append]
  refine ⟨hnodup, List.nodup_singleton _, ?_⟩
  intro a ha hmem
  rw [List.mem_singleton] at hmem
  subst hmem
  exact (hid ▸ hfresh) ha

/-- Witness for C4 (amended): a create over the store holding id "1",
with generated id "5-0", keeps all ids pairwise distinct. -/
theorem c4_amended_fresh_id_witness :
    generateId 5 0 ∉ [sampleEvent].map Event.id
  ∧ Event.id ⟨"5-0", "B", "x", "L", "", .arr []⟩ = generateId 5 0
  ∧ Event.id ⟨"5-0", "B", "x", "L", "", .arr []⟩ ∉ [sampleEvent].map Event.id
  ∧ (([sampleEvent] ++ [(⟨"5-0", "B", "x", "L", "", .arr []⟩ : Event)]).map Event.id).Nodup
  ∧ (Store.events ([sampleEvent] ++ [(⟨"5-0", "B", "x", "L", "", .arr []⟩ : Event)]) : Store)
      = .events ([sampleEvent] ++ [(⟨"5-0", "B", "x", "L", "", .arr []⟩ : Event)]) := by
  refine ⟨by decide, ?_⟩
  have h := c4_amended_fresh_id ⟨some "B", some "x", some "L", none, none⟩ 5 0
    [sampleEvent] ⟨"5-0", "B", "x", "L", "", .arr []⟩
    (.events ([sampleEvent] ++ [(⟨"5-0", "B", "x", "L", "", .arr []⟩ : Event)]))
    (by decide) (by decide) (by decide)
  exact ⟨h.1, h.2.1, h.2.2.1, rfl⟩

/-- C8 counterexample: the update handler validates the body before the
id lookup, so an update targeting an id absent from the collection does
not always answer 404: with the empty body it answers 400. -/
theorem c8_counterexample :
    putEvent "missing" ⟨none, none, none, none, none, none⟩ (.events [])
      = (.badRequest, .events [])
  ∧ Resp.status .badRequest = 400
  ∧ Resp.status .badRequest ≠ 404 := by
  exact ⟨by decide, rfl, by decide⟩

/-- C8 (amended): an update that passes the body validation and targets
an id not in the collection answers 404 with the collection unchanged; a
delete targeting an absent id answers 404 with the collection unchanged;
a delete of an existing id (ids pairwise distinct) removes exactly that
record, persists the remainder and answers 200, and a second delete of
the same id answers 404. -/
theorem c8_amended_notfound_delete (pid : String) (b : UpdateBody)
    (events : List Event) :
    (truthyOpt b.eventName = false → truthyOpt b.id = false →
      (b.location.isNone && b.description.isNone
        && b.tags.isNone && b.date.isNone) = false →
      (∀ x ∈ events, x.id ≠ pid) →
      putEvent pid b (.events events) = (.notFound, .events events)
        ∧ Resp.status .notFound = 404)
  ∧ ((∀ x ∈ events, x.id ≠ pid) →
      deleteEvent pid (.events events) = (.notFound, .events events))
  ∧ (pid ∈ events.map Event.id → (events.map Event.id).Nodup →
      ∃ pre e post, events = pre ++ e :: post ∧ e.id = pid
        ∧ deleteEvent pid (.events events) = (.okMsg, .events (pre ++ post))
        ∧ Resp.status .okMsg = 200
        ∧ deleteEvent pid (.events (pre ++ post))
            = (.notFound, .events (pre ++ post))) := by
  refine ⟨?_, ?_, ?_⟩
  · intro hname hid hfield hno
    have hul := updateList_none pid b events fun x hx => by simp [hno x hx]
    exact ⟨by simp [putEvent, hname, hid, hfield, readEvents, hul], rfl⟩
  · intro hno
    have hany : (events.any fun x => x.id == pid) = false := by
      rw [List.any_eq_false]
      intro x hx
      simpa using hno x hx
    simp [deleteEvent, readEvents, hany]
  · intro hmem hnodup
    rw [List.mem_map] at hmem
    obtain ⟨e, hemem, heid⟩ := hmem
    subst heid
    obtain ⟨pre, post, hsplit⟩ := List.append_of_mem hemem
    subst hsplit
    obtain ⟨hpre, hpost⟩ := nodup_split_ids pre post e hnodup
    have hfilter := filter_ne_of_split pre post e hpre hpost
    have hany : ((pre ++ e :: post).any fun x => x.id == e.id) = true :=
      List.any_eq_true.mpr ⟨e, by simp, by simp⟩
    have hany2 : ((pre ++ post).any fun x => x.id == e.id) = false := by
      rw [List.any_eq_false]
      intro x hx
      rcases List.mem_append.mp hx with h | h
      · simpa using hpre x h
      · simpa using hpost x h
    refine ⟨pre, e, post, rfl, rfl, ?_, rfl, ?_⟩
    · simp [deleteEvent, readEvents, hany, writeEvents, hfilter]
    · simp [deleteEvent, readEvents, hany2]

/-- Witness for C8 (amended): on the singleton store holding id "1",
updating and deleting id "z" answer 404 leaving the store unchanged, and
deleting id "1" removes that record after which deleting it again
answers 404. -/
theorem c8_amended_notfound_delete_witness :
    (putEvent "z" ⟨some "x", none, none, none, none, none⟩ (.events [sampleEvent])
        = (.notFound, .events [sampleEvent])
      ∧ Resp.status .notFound = 404)
  ∧ deleteEvent "z" (.events [sampleEvent]) = (.notFound, .events [sampleEvent])
  ∧ (∃ pre e post, [sampleEvent] = pre ++ e :: post ∧ e.id = "1"
      ∧ deleteEvent "1" (.events [sampleEvent]) = (.okMsg, .events (pre ++ post))
      ∧ Resp.status .okMsg = 200
      ∧ deleteEvent "1" (.events (pre ++ post))
          = (.notFound, .events (pre ++ post))) :=
  ⟨(c8_amended_notfound_delete "z" ⟨some "x", none, none, none, none, none⟩
      [sampleEvent]).1 (by decide) (by decide) (by decide) (by decide),
   (c8_amended_notfound_delete "z" ⟨some "x", none, none, none, none, none⟩
      [sampleEvent]).2.1 (by decide),
   (c8_amended_notfound_delete "1" ⟨some "x", none, none, none, none, none⟩
      [sampleEvent]).2.2 (by decide) (by decide)⟩

/-- The create handler's tags value is always an array. -/
theorem createTags_isArr (ot : Option TagsVal) : (createTags ot).isArr = true := by
  match ot with
  | none => rfl
  | some (.arr l) => rfl
  | some (.prim s) =>
      cases h : s == "" <;> simp [createTags, h, TagsVal.isArr]

/-- The update handler's tags value is always an array. -/
theorem wrapTags_isArr (t : TagsVal) : (wrapTags t).isArr = true := by
  cases t <;> rfl

/-- C10: create and update never store a non-array tags value as-is: a
truthy non-array tags value on create is wrapped into a one-element
array and a falsy one replaced by the empty array; on update any
supplied non-array tags value is wrapped into a one-element array; every
record a successful create responds with has array tags, and a
successful update on a store whose records all have array tags returns a
record with array tags and writes back only records with array tags. -/
theorem c10_tags_stored_as_array (s : String) (ot : Option TagsVal) (t : TagsVal) :
    createTags (some (.prim s)) = (if s == "" then .arr [] else .arr [s])
  ∧ wrapTags (.prim s) = .arr [s]
  ∧ (createTags ot).isArr = true
  ∧ (wrapTags t).isArr = true
  ∧ (∀ (b : CreateBody) (now rand : Nat) (st : Store) (e : Event) (st' : Store),
      postEvent b now rand st = (.created e, st') →
      e.tags = createTags b.tags ∧ e.tags.isArr = true)
  ∧ (∀ (pid : String) (b : UpdateBody) (events : List Event)
        (u : Event) (st' : Store),
      (∀ x ∈ events, x.tags.isArr = true) →
      putEvent pid b (.events events) = (.okEvent u, st') →
      u.tags.isArr = true
        ∧ ∃ events', st' = .events events'
            ∧ ∀ x ∈ events', x.tags.isArr = true) := by
  refine ⟨rfl, rfl, createTags_isArr ot, wrapTags_isArr t, ?_, ?_⟩
  · intro b now rand st e st' hsucc
    obtain ⟨events0, -, -, he, -⟩ :=
      postEvent_created_inv b now rand st e st' hsucc
    have htags : e.tags = createTags b.tags := by rw [he]
    exact ⟨htags, htags ▸ createTags_isArr b.tags⟩
  · intro pid b events u st' hall hsucc
    obtain ⟨events', hul, hst⟩ := putEvent_ok_inv pid b events u st' hsucc
    obtain ⟨pre, e, post, hev, -, hu, hev'⟩ :=
      updateList_decomp pid b events u events' hul
    have hetags : e.tags.isArr = true := hall e (by rw [hev]; simp)
    have hutags : u.tags.isArr = true := by
      rw [hu]
      cases hbt : b.tags with
      | none => simpa [applyUpdate, hbt] using hetags
      | some t0 => simp [applyUpdate, hbt, wrapTags_isArr]
    refine ⟨hutags, events', hst, ?_⟩
    intro x hx
    rw [hev'] at hx
    rcases List.mem_append.mp hx with h | h
    · exact hall x (by rw [hev]; exact List.mem_append.mpr (Or.inl h))
    · rcases List.mem_cons.mp h with h | h
      · rw [h]; exact hutags
      · exact hall x
          (by rw [hev]; exact List.mem_append.mpr (Or.inr (List.mem_cons_of_mem e h)))

/-- Witness for C10: a create supplying tags as the non-array value "x"
stores the one-element array, and an update supplying tags as the
non-array falsy value "" stores the one-element array containing "". -/
theorem c10_tags_stored_as_array_witness :
    TagsVal.isArr (Event.tags ⟨"5-3", "A", "d", "L", "", .arr ["x"]⟩) = true
  ∧ (TagsVal.isArr (Event.tags ⟨"1", "A", "2025-01-01", "Here", "d", .arr [""]⟩) = true
      ∧ ∃ events',
          (Store.events [(⟨"1", "A", "2025-01-01", "Here", "d", .arr [""]⟩ : Event)]
            : Store) = .events events'
          ∧ ∀ x ∈ events', TagsVal.isArr x.tags = true) := by
  constructor
  · exact ((c10_tags_stored_as_array "x" none (.arr [])).2.2.2.2.1
      ⟨some "A", some "d", some "L", none, some (.prim "x")⟩ 5 3 (.events [])
      ⟨"5-3", "A", "d", "L", "", .arr ["x"]⟩
      (.events [(⟨"5-3", "A", "d", "L", "", .arr ["x"]⟩ : Event)])
      (by decide)).2
  · exact (c10_tags_stored_as_array "x" none (.arr [])).2.2.2.2.2 "1"
      ⟨none, none, some (.prim ""), none, none, none⟩ [sampleEvent]
      ⟨"1", "A", "2025-01-01", "Here", "d", .arr [""]⟩
      (.events [(⟨"1", "A", "2025-01-01", "Here", "d", .arr [""]⟩ : Event)])
      (by decide) (by decide)
